import Mathlib

/-!
Verification development for the beach-volleyball ELO repository.

The frontend utilities (leaderboard comparator, match-form validation and
player-slot handling) are embedded directly from the JavaScript sources under
`src/frontend`.  The backend rating engine, session naming and session
lock-in logic are not present under `src/` (only their documentation and
database schema are), so those parts are modelled from the spec, as noted in
their doc comments.
-/

namespace BVElo

/-- A leaderboard summary row as consumed by
`src/frontend/src/utils/playerUtils.js`: the fields `Points`,
`Avg Pt Diff`, `Win Rate` and `ELO` of a ranking object.  JavaScript numbers
are modelled as rationals. -/
structure PlayerRow where
  points : ℚ
  avgPtDiff : ℚ
  winRate : ℚ
  elo : ℚ
deriving DecidableEq, Repr

/-- Embedding of `sortPlayersDefault` from
`src/frontend/src/utils/playerUtils.js`: the comparator value
(negative when `a` sorts before `b`). -/
def sortPlayersDefault (a b : PlayerRow) : ℚ :=
  if a.points ≠ b.points then b.points - a.points
  else if a.avgPtDiff ≠ b.avgPtDiff then b.avgPtDiff - a.avgPtDiff
  else if a.winRate ≠ b.winRate then b.winRate - a.winRate
  else b.elo - a.elo

/-- The four-level tie-break order as the spec words it: more points first;
then higher average point differential; then higher win rate; then higher
rating. -/
def specPrecedes (a b : PlayerRow) : Prop :=
  b.points < a.points ∨
    (a.points = b.points ∧ b.avgPtDiff < a.avgPtDiff) ∨
    (a.points = b.points ∧ a.avgPtDiff = b.avgPtDiff ∧ b.winRate < a.winRate) ∨
    (a.points = b.points ∧ a.avgPtDiff = b.avgPtDiff ∧ a.winRate = b.winRate ∧
      b.elo < a.elo)

instance (a b : PlayerRow) : Decidable (specPrecedes a b) := by
  unfold specPrecedes; infer_instance

/-- Full equality of the four sort keys. -/
def rowKeysEq (a b : PlayerRow) : Prop :=
  a.points = b.points ∧ a.avgPtDiff = b.avgPtDiff ∧ a.winRate = b.winRate ∧
    a.elo = b.elo

instance (a b : PlayerRow) : Decidable (rowKeysEq a b) := by
  unfold rowKeysEq; infer_instance

theorem sortPlayersDefault_lt_iff (a b : PlayerRow) :
    sortPlayersDefault a b < 0 ↔ specPrecedes a b := by
  unfold sortPlayersDefault specPrecedes
  by_cases h1 : a.points = b.points <;>
    by_cases h2 : a.avgPtDiff = b.avgPtDiff <;>
      by_cases h3 : a.winRate = b.winRate <;>
        simp [h1, h2, h3] <;> constructor <;> intro h <;>
          first
            | linarith
            | (rcases h with h | h | h | h <;> first | linarith | tauto)

theorem sortPlayersDefault_eq_zero_iff (a b : PlayerRow) :
    sortPlayersDefault a b = 0 ↔ rowKeysEq a b := by
  unfold sortPlayersDefault rowKeysEq
  by_cases h1 : a.points = b.points <;>
    by_cases h2 : a.avgPtDiff = b.avgPtDiff <;>
      by_cases h3 : a.winRate = b.winRate <;>
        simp [h1, h2, h3, sub_eq_zero, eq_comm]

theorem sortPlayersDefault_antisymm (a b : PlayerRow) :
    sortPlayersDefault b a = -(sortPlayersDefault a b) := by
  unfold sortPlayersDefault
  by_cases h1 : a.points = b.points <;>
    by_cases h2 : a.avgPtDiff = b.avgPtDiff <;>
      by_cases h3 : a.winRate = b.winRate <;>
        simp [h1, h2, h3, Ne.symm, ne_comm] <;> ring

theorem specPrecedes_trans {a b c : PlayerRow}
    (hab : specPrecedes a b) (hbc : specPrecedes b c) : specPrecedes a c := by
  unfold specPrecedes at *
  rcases hab with h | h | h | h <;> rcases hbc with h2 | h2 | h2 | h2 <;>
    [skip; skip; skip; skip; skip; skip; skip; skip; skip; skip; skip; skip;
      skip; skip; skip; skip] <;>
    first
      | (left; first | linarith [h.1, h2.1] | linarith)
      | (right; left;
          first
            | exact ⟨h.1.trans h2.1, by linarith [h.2.1, h2.2.1]⟩
            | exact ⟨h.1.trans h2.1, by linarith⟩
            | exact ⟨h.1.trans h2.1, by linarith [h.2.1]⟩)
      | (right; right; left;
          exact ⟨h.1.trans h2.1, h.2.1.trans h2.2.1, by linarith⟩)
      | (right; right; right;
          exact ⟨h.1.trans h2.1, h.2.1.trans h2.2.1, h.2.2.1.trans h2.2.2.1,
            by linarith⟩)

theorem specPrecedes_of_keysEq_left {a b c : PlayerRow}
    (hab : rowKeysEq a b) (hbc : specPrecedes b c) : specPrecedes a c := by
  obtain ⟨h1, h2, h3, h4⟩ := hab
  unfold specPrecedes at *
  rcases hbc with h | h | h | h
  · left; rw [h1]; exact h
  · right; left; rw [h1, h2]; exact h
  · right; right; left; rw [h1, h2, h3]; exact h
  · right; right; right; rw [h1, h2, h3, h4]; exact h

theorem specPrecedes_of_keysEq_right {a b c : PlayerRow}
    (hab : specPrecedes a b) (hbc : rowKeysEq b c) : specPrecedes a c := by
  obtain ⟨h1, h2, h3, h4⟩ := hbc
  unfold specPrecedes at *
  rcases hab with h | h | h | h
  · left; rw [← h1]; exact h
  · right; left; rw [← h1, ← h2]; exact h
  · right; right; left; rw [← h1, ← h2, ← h3]; exact h
  · right; right; right; rw [← h1, ← h2, ← h3, ← h4]; exact h

theorem rowKeysEq_trans {a b c : PlayerRow}
    (hab : rowKeysEq a b) (hbc : rowKeysEq b c) : rowKeysEq a c :=
  ⟨hab.1.trans hbc.1, hab.2.1.trans hbc.2.1, hab.2.2.1.trans hbc.2.2.1,
    hab.2.2.2.trans hbc.2.2.2⟩

theorem sortPlayersDefault_le_cases (a b : PlayerRow)
    (h : sortPlayersDefault a b ≤ 0) : specPrecedes a b ∨ rowKeysEq a b := by
  rcases lt_or_eq_of_le h with h | h
  · exact Or.inl ((sortPlayersDefault_lt_iff a b).mp h)
  · exact Or.inr ((sortPlayersDefault_eq_zero_iff a b).mp h)

theorem sortPlayersDefault_le_trans {a b c : PlayerRow}
    (hab : sortPlayersDefault a b ≤ 0) (hbc : sortPlayersDefault b c ≤ 0) :
    sortPlayersDefault a c ≤ 0 := by
  rcases sortPlayersDefault_le_cases a b hab with h1 | h1 <;>
    rcases sortPlayersDefault_le_cases b c hbc with h2 | h2
  · exact le_of_lt ((sortPlayersDefault_lt_iff a c).mpr (specPrecedes_trans h1 h2))
  · exact le_of_lt ((sortPlayersDefault_lt_iff a c).mpr
      (specPrecedes_of_keysEq_right h1 h2))
  · exact le_of_lt ((sortPlayersDefault_lt_iff a c).mpr
      (specPrecedes_of_keysEq_left h1 h2))
  · exact le_of_eq ((sortPlayersDefault_eq_zero_iff a c).mpr
      (rowKeysEq_trans h1 h2))

theorem sortPlayersDefault_total (a b : PlayerRow) :
    sortPlayersDefault a b ≤ 0 ∨ sortPlayersDefault b a ≤ 0 := by
  rcases le_total (sortPlayersDefault a b) 0 with h | h
  · exact Or.inl h
  · right; rw [sortPlayersDefault_antisymm]; linarith

/-- C1: the leaderboard comparator `sortPlayersDefault` realises exactly the
four-level tie-break: the comparator is negative precisely when the first row
strictly precedes the second under points, then average point differential,
then win rate, then rating; it is zero precisely when all four keys agree;
when the first three keys agree it returns the ELO difference; and the order
it induces is a total preorder (antisymmetric as a comparator, total and
transitive), so that together with a stable sort it yields a defined total
order on rows. -/
theorem leaderboard_order_is_four_level_tiebreak (a b c : PlayerRow) :
    (sortPlayersDefault a b < 0 ↔ specPrecedes a b) ∧
    (sortPlayersDefault a b = 0 ↔ rowKeysEq a b) ∧
    (a.points = b.points → a.avgPtDiff = b.avgPtDiff → a.winRate = b.winRate →
      sortPlayersDefault a b = b.elo - a.elo) ∧
    sortPlayersDefault b a = -(sortPlayersDefault a b) ∧
    (sortPlayersDefault a b ≤ 0 ∨ sortPlayersDefault b a ≤ 0) ∧
    (sortPlayersDefault a b ≤ 0 → sortPlayersDefault b c ≤ 0 →
      sortPlayersDefault a c ≤ 0) := by
  refine ⟨sortPlayersDefault_lt_iff a b, sortPlayersDefault_eq_zero_iff a b,
    ?_, sortPlayersDefault_antisymm a b, sortPlayersDefault_total a b,
    fun h1 h2 => sortPlayersDefault_le_trans h1 h2⟩
  intro h1 h2 h3
  unfold sortPlayersDefault
  simp [h1, h2, h3]

/-- Witness for C1 at concrete rows. -/
theorem leaderboard_order_is_four_level_tiebreak_witness :
    sortPlayersDefault ⟨3, 2, 1, 1250⟩ ⟨3, 2, 1, 1200⟩ = 1200 - 1250 ∧
    sortPlayersDefault ⟨3, 2, 1, 1250⟩ ⟨1, 5, 1, 1300⟩ ≤ 0 := by
  obtain ⟨-, -, h3, -, -, h6⟩ :=
    leaderboard_order_is_four_level_tiebreak ⟨3, 2, 1, 1250⟩ ⟨3, 2, 1, 1200⟩
      ⟨1, 5, 1, 1300⟩
  exact ⟨h3 rfl rfl rfl,
    h6 (by norm_num [sortPlayersDefault]) (by norm_num [sortPlayersDefault])⟩

/-- The match-entry form state of
`src/frontend/src/components/match/AddMatchModal.jsx`.  The four player
fields hold player names (the empty string models the unselected state of
`INITIAL_FORM_STATE`); the two score fields hold the result of
`parseInt` on the score strings, with `none` modelling `NaN` (empty or
non-numeric input). -/
structure FormData where
  team1Player1 : String
  team1Player2 : String
  team2Player1 : String
  team2Player2 : String
  team1Score : Option Int
  team2Score : Option Int
deriving DecidableEq, Repr

/-- Embedding of `INITIAL_FORM_STATE`: all fields empty. -/
def INITIAL_FORM_STATE : FormData :=
  ⟨"", "", "", "", none, none⟩

/-- Result record of `validateScores`. -/
structure ScoreValidation where
  isValid : Bool
  errorMessage : Option String
  score1 : Option Int
  score2 : Option Int
deriving DecidableEq, Repr

/-- Embedding of `validateScores` from `AddMatchModal.jsx`, branch for
branch: reject when a parsed score is `NaN` (`none`) or negative; then
reject tied scores; then the (dead) both-zero branch; otherwise accept and
return the parsed scores. -/
def validateScores (score1 score2 : Option Int) : ScoreValidation :=
  match score1, score2 with
  | some s1, some s2 =>
    if s1 < 0 ∨ s2 < 0 then
      ⟨false, some "Please enter valid scores", none, none⟩
    else if s1 = s2 then
      ⟨false, some "Scores cannot be tied. There must be a winner.", none, none⟩
    else if s1 = 0 ∧ s2 = 0 then
      ⟨false, some "Both scores cannot be zero", none, none⟩
    else
      ⟨true, none, some s1, some s2⟩
  | _, _ => ⟨false, some "Please enter valid scores", none, none⟩

/-- Embedding of `validateFormFields` from `AddMatchModal.jsx`: all four
player fields and both score strings must be non-empty (an empty score
string parses to `NaN`, so at this level a present score is a `some`). -/
def validateFormFields (f : FormData) : Bool :=
  f.team1Player1 ≠ "" && f.team1Player2 ≠ "" && f.team2Player1 ≠ "" &&
    f.team2Player2 ≠ "" && f.team1Score.isSome && f.team2Score.isSome

/-- The payload `handleSubmit` passes to `onSubmit` (and onward to the
backend, hence to the Rating Engine) when validation passes. -/
structure SubmittedMatch where
  team1_player1 : String
  team1_player2 : String
  team2_player1 : String
  team2_player2 : String
  team1_score : Int
  team2_score : Int
deriving DecidableEq, Repr

/-- Embedding of the validation path of `handleSubmit` in
`AddMatchModal.jsx`: field validation, then score validation; only when
both pass is a match submitted (`none` models the early return that keeps
the match from reaching the Rating Engine). -/
def handleSubmit (f : FormData) : Option SubmittedMatch :=
  if validateFormFields f = false then none
  else
    match validateScores f.team1Score f.team2Score with
    | ⟨true, _, some s1, some s2⟩ =>
      some ⟨f.team1Player1, f.team1Player2, f.team2Player1, f.team2Player2,
        s1, s2⟩
    | _ => none

theorem validateScores_isValid_iff (s1 s2 : Option Int) :
    (validateScores s1 s2).isValid = true ↔
      ∃ a b : Int, s1 = some a ∧ s2 = some b ∧ 0 ≤ a ∧ 0 ≤ b ∧ a ≠ b := by
  match s1, s2 with
  | none, s2 => simp [validateScores]
  | some a, none => simp [validateScores]
  | some a, some b =>
    simp only [validateScores]
    split_ifs with hneg heq hz <;> simp <;> omega

theorem validateScores_eq_of_accept {a b : Int} (ha : 0 ≤ a) (hb : 0 ≤ b)
    (hab : a ≠ b) :
    validateScores (some a) (some b) = ⟨true, none, some a, some b⟩ := by
  simp only [validateScores]
  split_ifs with hneg heq hz <;> first | rfl | omega

theorem validateScores_error_of_invalid (s1 s2 : Option Int)
    (h : (validateScores s1 s2).isValid = false) :
    (validateScores s1 s2).errorMessage.isSome = true := by
  match s1, s2 with
  | none, s2 => simp [validateScores]
  | some a, none => simp [validateScores]
  | some a, some b =>
    simp only [validateScores] at *
    split_ifs at * <;> simp_all

/-- C2: a submitted match with equal scores is rejected with an error before
reaching the Rating Engine, as is one with a negative or non-numeric
(`NaN`) score; `validateScores` accepts exactly when both scores parse to
non-negative integers and the two differ, and a match only reaches
submission with such scores. -/
theorem tied_or_invalid_scores_rejected (s1 s2 : Option Int) (f : FormData) :
    ((validateScores s1 s2).isValid = true ↔
      ∃ a b : Int, s1 = some a ∧ s2 = some b ∧ 0 ≤ a ∧ 0 ≤ b ∧ a ≠ b) ∧
    (∀ a : Int, s1 = some a → s2 = some a →
      (validateScores s1 s2).isValid = false ∧
        (validateScores s1 s2).errorMessage.isSome = true) ∧
    (s1 = none ∨ s2 = none → (validateScores s1 s2).isValid = false) ∧
    (∀ m : SubmittedMatch, handleSubmit f = some m →
      0 ≤ m.team1_score ∧ 0 ≤ m.team2_score ∧ m.team1_score ≠ m.team2_score) := by
  refine ⟨validateScores_isValid_iff s1 s2, ?_, ?_, ?_⟩
  · rintro a rfl rfl
    have h : (validateScores (some a) (some a)).isValid = false := by
      rcases hv : (validateScores (some a) (some a)).isValid with _ | _
      · rfl
      · obtain ⟨x, y, hx, hy, -, -, hxy⟩ :=
          (validateScores_isValid_iff (some a) (some a)).mp hv
        cases hx; cases hy; exact absurd rfl hxy
    exact ⟨h, validateScores_error_of_invalid _ _ h⟩
  · rintro (rfl | rfl)
    · rcases hv : (validateScores none s2).isValid with _ | _
      · rfl
      · obtain ⟨x, y, hx, -⟩ := (validateScores_isValid_iff none s2).mp hv
        exact absurd hx (by simp)
    · rcases hv : (validateScores s1 none).isValid with _ | _
      · rfl
      · obtain ⟨x, y, -, hy, -⟩ := (validateScores_isValid_iff s1 none).mp hv
        exact absurd hy (by simp)
  · intro m hm
    unfold handleSubmit at hm
    split_ifs at hm
    match hv : validateScores f.team1Score f.team2Score with
    | ⟨true, e, some a, some b⟩ =>
      rw [hv] at hm
      obtain ⟨x, y, hx, hy, hx0, hy0, hxy⟩ :=
        (validateScores_isValid_iff f.team1Score f.team2Score).mp
          (by rw [hv])
      have := validateScores_eq_of_accept hx0 hy0 hxy
      rw [hx, hy, this] at hv
      simp only [ScoreValidation.mk.injEq] at hv
      obtain ⟨-, -, ha2, hb2⟩ := hv
      cases hm
      simp only [Option.some.injEq] at ha2 hb2
      subst ha2; subst hb2
      exact ⟨hx0, hy0, hxy⟩
    | ⟨true, e, some a, none⟩ => rw [hv] at hm; exact absurd hm (by simp)
    | ⟨true, e, none, b⟩ => rw [hv] at hm; exact absurd hm (by simp)
    | ⟨false, e, a, b⟩ => rw [hv] at hm; exact absurd hm (by simp)

/-- Witness for C2 at concrete scores. -/
theorem tied_or_invalid_scores_rejected_witness :
    (validateScores (some 21) (some 15)).isValid = true ∧
    (validateScores (some 10) (some 10)).isValid = false ∧
    0 ≤ (21 : Int) := by
  refine ⟨?_, ?_, by decide⟩
  · exact (tied_or_invalid_scores_rejected (some 21) (some 15)
      INITIAL_FORM_STATE).1.mpr ⟨21, 15, rfl, rfl, by decide, by decide, by decide⟩
  · exact ((tied_or_invalid_scores_rejected (some 10) (some 10)
      INITIAL_FORM_STATE).2.1 10 rfl rfl).1

/-- C9: the both-zero error branch of `validateScores` is dead code — its
message is never returned — and rejection happens exactly when a parsed
score is `NaN` (`none`) or negative or the two scores are equal; on every
accepted input the parsed scores are returned unchanged. -/
theorem bothZero_branch_unreachable (s1 s2 : Option Int) :
    (validateScores s1 s2).errorMessage ≠ some "Both scores cannot be zero" ∧
    ((validateScores s1 s2).isValid = false ↔
      s1 = none ∨ s2 = none ∨ (∃ a : Int, s1 = some a ∧ a < 0) ∨
        (∃ b : Int, s2 = some b ∧ b < 0) ∨
        (∃ a : Int, s1 = some a ∧ s2 = some a)) ∧
    (∀ a b : Int, s1 = some a → s2 = some b → 0 ≤ a → 0 ≤ b → a ≠ b →
      validateScores s1 s2 = ⟨true, none, some a, some b⟩) := by
  refine ⟨?_, ?_, fun a b h1 h2 ha hb hab => by
    rw [h1, h2]; exact validateScores_eq_of_accept ha hb hab⟩
  · match s1, s2 with
    | some a, some b =>
      simp only [validateScores]
      split_ifs <;> simp <;> omega
    | some a, none => simp [validateScores]
    | none, s2 => simp [validateScores]
  · match s1, s2 with
    | some a, some b =>
      simp only [validateScores]
      split_ifs with hneg heq hz <;> simp <;> omega
    | some a, none => simp [validateScores]
    | none, s2 => simp [validateScores]

/-- Witness for C9 at concrete scores. -/
theorem bothZero_branch_unreachable_witness :
    (validateScores (some 0) (some 0)).errorMessage ≠
      some "Both scores cannot be zero" ∧
    validateScores (some 21) (some 15) = ⟨true, none, some 21, some 15⟩ := by
  refine ⟨(bothZero_branch_unreachable (some 0) (some 0)).1, ?_⟩
  exact (bothZero_branch_unreachable (some 21) (some 15)).2.2 21 15 rfl rfl
    (by decide) (by decide) (by decide)

/-- The four player positions of the match-entry form (the form keys whose
name contains the word Player). -/
inductive PlayerSlot where
  | t1p1
  | t1p2
  | t2p1
  | t2p2
deriving DecidableEq, Fintype, Repr

/-- Read the player field of a slot. -/
def getSlot (f : FormData) : PlayerSlot → String
  | .t1p1 => f.team1Player1
  | .t1p2 => f.team1Player2
  | .t2p1 => f.team2Player1
  | .t2p2 => f.team2Player2

/-- Rebuild the form with new player fields, keeping the scores. -/
def withSlots (f : FormData) (g : PlayerSlot → String) : FormData :=
  { f with
    team1Player1 := g .t1p1
    team1Player2 := g .t1p2
    team2Player1 := g .t2p1
    team2Player2 := g .t2p2 }

/-- Embedding of `handlePlayerChange` from `AddMatchModal.jsx`: when a
non-empty player is selected, write it into the chosen field and clear every
other player field that already held that name; when the selection is
cleared (empty string), just write the empty value. -/
def handlePlayerChange (f : FormData) (field : PlayerSlot) (newPlayer : String) :
    FormData :=
  if newPlayer ≠ "" then
    withSlots f fun s =>
      if s = field then newPlayer
      else if getSlot f s = newPlayer then "" else getSlot f s
  else
    withSlots f fun s => if s = field then newPlayer else getSlot f s

/-- Embedding of `getExcludedPlayers` from `AddMatchModal.jsx`: the players
selected in the form, minus empties and the current dropdown's own value. -/
def getExcludedPlayers (f : FormData) (currentPlayer : String) : List String :=
  ([f.team1Player1, f.team1Player2, f.team2Player1, f.team2Player2]).filter
    fun player => player ≠ "" && player ≠ currentPlayer

/-- A non-empty player name occupies at most one of the four slots. -/
def distinctSlots (f : FormData) : Prop :=
  ∀ s t : PlayerSlot, s ≠ t → getSlot f s ≠ "" → getSlot f s ≠ getSlot f t

instance (f : FormData) : Decidable (distinctSlots f) := by
  unfold distinctSlots; infer_instance

theorem getSlot_withSlots (f : FormData) (g : PlayerSlot → String)
    (s : PlayerSlot) : getSlot (withSlots f g) s = g s := by
  cases s <;> rfl

/-- C3: selecting a non-empty player puts them in the chosen slot and in no
other slot; the duplicate-prevention update preserves the all-slots-distinct
invariant from any state (so starting from the empty initial form, no
submitted match carries a duplicate player); the initial form state is
distinct; and each dropdown's exclusion list contains exactly the non-empty
names selected in the form other than the dropdown's own current value. -/
theorem player_slots_distinct (f : FormData) (field : PlayerSlot)
    (p c q : String) :
    (p ≠ "" → getSlot (handlePlayerChange f field p) field = p ∧
      ∀ s : PlayerSlot, s ≠ field → getSlot (handlePlayerChange f field p) s ≠ p) ∧
    (distinctSlots f → distinctSlots (handlePlayerChange f field p)) ∧
    distinctSlots INITIAL_FORM_STATE ∧
    (q ∈ getExcludedPlayers f c ↔
      q ≠ "" ∧ q ≠ c ∧ ∃ s : PlayerSlot, getSlot f s = q) := by
  refine ⟨?_, ?_, by decide, ?_⟩
  · intro hp
    refine ⟨?_, ?_⟩
    · simp [handlePlayerChange, hp, getSlot_withSlots]
    · intro s hs
      simp only [handlePlayerChange, if_pos hp, getSlot_withSlots, if_neg hs]
      split_ifs with h
      · exact fun hcon => hp hcon.symm
      · exact h
  · intro hd
    intro s t hst hns
    by_cases hp : p = ""
    · subst hp
      have hform : handlePlayerChange f field "" =
          withSlots f fun s => if s = field then "" else getSlot f s := by
        simp [handlePlayerChange]
      simp only [hform, getSlot_withSlots] at hns ⊢
      by_cases h1 : s = field
      · rw [if_pos h1] at hns; exact absurd rfl hns
      · rw [if_neg h1] at hns ⊢
        by_cases h2 : t = field
        · rw [if_pos h2]; exact hns
        · rw [if_neg h2]; exact hd s t hst hns
    · have hform : handlePlayerChange f field p =
          withSlots f fun s => if s = field then p
            else if getSlot f s = p then "" else getSlot f s := by
        simp [handlePlayerChange, hp]
      simp only [hform, getSlot_withSlots] at hns ⊢
      by_cases h1 : s = field
      · rw [if_pos h1] at hns ⊢
        have h2 : ¬(t = field) := fun h => hst (h1.trans h.symm)
        rw [if_neg h2]
        by_cases h3 : getSlot f t = p
        · rw [if_pos h3]; exact hp
        · rw [if_neg h3]; exact fun hcon => h3 hcon.symm
      · rw [if_neg h1] at hns ⊢
        by_cases h3 : getSlot f s = p
        · rw [if_pos h3] at hns; exact absurd rfl hns
        · rw [if_neg h3] at hns ⊢
          by_cases h2 : t = field
          · rw [if_pos h2]; exact h3
          · rw [if_neg h2]
            by_cases h4 : getSlot f t = p
            · rw [if_pos h4]; exact hns
            · rw [if_neg h4]; exact hd s t hst hns
  · constructor
    · intro hq
      simp only [getExcludedPlayers, List.mem_filter] at hq
      obtain ⟨hmem, hcond⟩ := hq
      simp only [Bool.and_eq_true, decide_eq_true_eq, ne_eq,
        bne_iff_ne] at hcond
      refine ⟨hcond.1, hcond.2, ?_⟩
      simp only [List.mem_cons, List.mem_singleton] at hmem
      rcases hmem with h | h | h | h | h
      · exact ⟨.t1p1, h.symm⟩
      · exact ⟨.t1p2, h.symm⟩
      · exact ⟨.t2p1, h.symm⟩
      · exact ⟨.t2p2, h.symm⟩
      · exact absurd h (List.not_mem_nil q)
    · rintro ⟨hq, hqc, s, hs⟩
      simp only [getExcludedPlayers, List.mem_filter]
      refine ⟨?_, ?_⟩
      · cases s <;> simp [getSlot] at hs <;> simp [← hs]
      · simp only [Bool.and_eq_true, decide_eq_true_eq, ne_eq, bne_iff_ne]
        exact ⟨hq, hqc⟩

/-- Witness for C3 at a concrete form state. -/
theorem player_slots_distinct_witness :
    getSlot (handlePlayerChange ⟨"Ann", "Bob", "", "", none, none⟩
      PlayerSlot.t2p1 "Ann") PlayerSlot.t2p1 = "Ann" ∧
    getSlot (handlePlayerChange ⟨"Ann", "Bob", "", "", none, none⟩
      PlayerSlot.t2p1 "Ann") PlayerSlot.t1p1 ≠ "Ann" ∧
    distinctSlots (handlePlayerChange ⟨"Ann", "Bob", "", "", none, none⟩
      PlayerSlot.t2p1 "Ann") ∧
    ("Bob" ∈ getExcludedPlayers ⟨"Ann", "Bob", "", "", none, none⟩ "Ann") := by
  obtain ⟨h1, h2, -, h4⟩ :=
    player_slots_distinct ⟨"Ann", "Bob", "", "", none, none⟩
      PlayerSlot.t2p1 "Ann" "Ann" "Bob"
  obtain ⟨ha, hb⟩ := h1 (by decide)
  refine ⟨ha, hb PlayerSlot.t1p1 (by decide), h2 (by decide), ?_⟩
  exact h4.mpr ⟨by decide, by decide, PlayerSlot.t1p2, rfl⟩

/-- The boolean order used to model the JavaScript stable sort by the
comparator `sortPlayersDefault` (an element sorts no later than another when
the comparator is non-positive). -/
def jsSortLe (a b : PlayerRow) : Bool :=
  decide (sortPlayersDefault a b ≤ 0)

/-- Embedding of `getFirstPlacePlayer` from
`src/frontend/src/utils/playerUtils.js`: `none` for a null, undefined or
empty rankings array, otherwise the first element of a stably sorted copy of
the rankings (`[...rankings].sort(sortPlayersDefault)[0]`, modelled with the
stable `List.mergeSort`). -/
def getFirstPlacePlayer : Option (List PlayerRow) → Option PlayerRow
  | none => none
  | some rankings =>
    if rankings.length = 0 then none
    else (rankings.mergeSort jsSortLe).head?

theorem jsSortLe_trans (a b c : PlayerRow) (hab : jsSortLe a b)
    (hbc : jsSortLe b c) : jsSortLe a c := by
  simp only [jsSortLe, decide_eq_true_eq] at *
  exact sortPlayersDefault_le_trans hab hbc

theorem jsSortLe_total (a b : PlayerRow) : jsSortLe a b || jsSortLe b a := by
  simp only [jsSortLe, Bool.or_eq_true, decide_eq_true_eq]
  exact sortPlayersDefault_total a b

/-- C10: `getFirstPlacePlayer` returns `none` exactly on a null, undefined
or empty rankings array; on every non-empty array it returns a member of
the array that no other element strictly precedes under the four-level
tie-break comparator.  (The source sorts a spread copy, so in this pure
model the input list itself is untouched by construction.) -/
theorem getFirstPlacePlayer_spec (l : List PlayerRow) :
    getFirstPlacePlayer none = none ∧
    getFirstPlacePlayer (some ([] : List PlayerRow)) = none ∧
    (∀ m : List PlayerRow, getFirstPlacePlayer (some m) = none → m = []) ∧
    (l ≠ [] → ∃ p : PlayerRow, getFirstPlacePlayer (some l) = some p ∧
      p ∈ l ∧ ∀ x ∈ l, sortPlayersDefault p x ≤ 0 ∧
        ¬ sortPlayersDefault x p < 0) := by
  refine ⟨rfl, rfl, ?_, ?_⟩
  · intro m hm
    by_cases h : m.length = 0
    · exact List.length_eq_zero.mp h
    · exfalso
      simp only [getFirstPlacePlayer, if_neg h] at hm
      rw [List.head?_eq_none_iff] at hm
      exact h (by rw [← (List.mergeSort_perm m jsSortLe).length_eq, hm]; rfl)
  · intro hl
    have hlen : ¬(l.length = 0) := fun h => hl (List.length_eq_zero.mp h)
    have hperm : List.Perm (l.mergeSort jsSortLe) l :=
      List.mergeSort_perm l jsSortLe
    have hsorted : (l.mergeSort jsSortLe).Pairwise fun a b => jsSortLe a b :=
      List.sorted_mergeSort jsSortLe_trans jsSortLe_total l
    match hms : l.mergeSort jsSortLe with
    | [] =>
      exfalso
      exact hlen (by rw [← (List.mergeSort_perm l jsSortLe).length_eq, hms]; rfl)
    | p :: t =>
      refine ⟨p, ?_, ?_, ?_⟩
      · simp [getFirstPlacePlayer, hlen, hms]
      · exact hperm.mem_iff.mp (by rw [hms]; exact List.mem_cons_self p t)
      · intro x hx
        have hx2 : x ∈ p :: t := by
          rw [← hms]; exact hperm.mem_iff.mpr hx
        have hle : sortPlayersDefault p x ≤ 0 := by
          rcases List.mem_cons.mp hx2 with rfl | hxt
          · exact le_of_eq ((sortPlayersDefault_eq_zero_iff x x).mpr
              ⟨rfl, rfl, rfl, rfl⟩)
          · rw [hms] at hsorted
            have := (List.pairwise_cons.mp hsorted).1 x hxt
            simpa [jsSortLe, decide_eq_true_eq] using this
        refine ⟨hle, ?_⟩
        rw [sortPlayersDefault_antisymm]
        linarith

/-- Witness for C10 on a concrete rankings array. -/
theorem getFirstPlacePlayer_spec_witness :
    ∃ p : PlayerRow,
      getFirstPlacePlayer (some [⟨1, 0, 0, 1200⟩, ⟨3, 0, 1, 1100⟩]) = some p ∧
      p ∈ [(⟨1, 0, 0, 1200⟩ : PlayerRow), ⟨3, 0, 1, 1100⟩] ∧
      ∀ x ∈ [(⟨1, 0, 0, 1200⟩ : PlayerRow), ⟨3, 0, 1, 1100⟩],
        sortPlayersDefault p x ≤ 0 ∧ ¬ sortPlayersDefault x p < 0 :=
  (getFirstPlacePlayer_spec [⟨1, 0, 0, 1200⟩, ⟨3, 0, 1, 1100⟩]).2.2.2
    (by simp)

/-- Modelled from the spec: the rating configuration constants of the
Rating Engine (the engine source, an `elo_calculator.py`, is not under
`src/`; only its documentation and schema are): `K` default 40 and
`INITIAL_RATING` default 1200. -/
def INITIAL_RATING : ℝ := 1200

/-- Modelled from the spec: the rating volatility constant, default 40. -/
def K : ℝ := 40

/-- Modelled from the spec: expected outcome for a team,
`E_A = 1 / (1 + 10^((R_B - R_A) / 400))`. -/
noncomputable def expectedScore (rA rB : ℝ) : ℝ :=
  1 / (1 + (10 : ℝ) ^ ((rB - rA) / 400))

/-- Modelled from the spec: a team's effective rating is the arithmetic
mean of its two players' current ratings. -/
noncomputable def teamRating (r1 r2 : ℝ) : ℝ := (r1 + r2) / 2

/-- Modelled from the spec: rating delta for a team,
`K * (actual - expected)`; both players of the team receive this identical
delta. -/
noncomputable def teamDelta (k actual rA rB : ℝ) : ℝ :=
  k * (actual - expectedScore rA rB)

/-- A settled match row, minimal shape per the spec: four player
identifiers and two integer scores. -/
structure SettledMatch where
  t1p1 : String
  t1p2 : String
  t2p1 : String
  t2p2 : String
  score1 : Int
  score2 : Int
deriving DecidableEq, Repr

/-- Modelled from the spec: the per-team delta recorded for team 1 in
binary mode (actual outcome 1 on a win, 0 otherwise). -/
noncomputable def team1EloChange (k : ℝ) (r : String → ℝ) (m : SettledMatch) :
    ℝ :=
  teamDelta k (if m.score2 < m.score1 then 1 else 0)
    (teamRating (r m.t1p1) (r m.t1p2)) (teamRating (r m.t2p1) (r m.t2p2))

/-- Modelled from the spec: the per-team delta recorded for team 2 in
binary mode. -/
noncomputable def team2EloChange (k : ℝ) (r : String → ℝ) (m : SettledMatch) :
    ℝ :=
  teamDelta k (if m.score1 < m.score2 then 1 else 0)
    (teamRating (r m.t2p1) (r m.t2p2)) (teamRating (r m.t1p1) (r m.t1p2))

/-- Modelled from the spec: applying one settled match to the running
ratings in binary mode — both players of each team receive their team's
identical delta; everyone else is untouched. -/
noncomputable def applyMatchBinary (k : ℝ) (r : String → ℝ)
    (m : SettledMatch) : String → ℝ :=
  fun p =>
    if p = m.t1p1 ∨ p = m.t1p2 then r p + team1EloChange k r m
    else if p = m.t2p1 ∨ p = m.t2p2 then r p + team2EloChange k r m
    else r p

/-- Embedding of the `points` property documented in
`src/unnamed/part_001` (the API guide shows the engine source): +3 for each
win, +1 for each loss. -/
def points (winCount gameCount : Nat) : Nat :=
  winCount * 3 + (gameCount - winCount) * 1

/-- The two expected outcomes of a match sum to one. -/
theorem expectedScore_add_symm (rA rB : ℝ) :
    expectedScore rA rB + expectedScore rB rA = 1 := by
  unfold expectedScore
  have hx : (rA - rB) / 400 = -((rB - rA) / 400) := by ring
  rw [hx, Real.rpow_neg (by norm_num : (0 : ℝ) ≤ 10)]
  have ht : (0 : ℝ) < (10 : ℝ) ^ ((rB - rA) / 400) :=
    Real.rpow_pos_of_pos (by norm_num) _
  field_simp
  ring

theorem expectedScore_pos (rA rB : ℝ) : 0 < expectedScore rA rB := by
  unfold expectedScore
  have ht : (0 : ℝ) < (10 : ℝ) ^ ((rB - rA) / 400) :=
    Real.rpow_pos_of_pos (by norm_num) _
  positivity

/-- C6: per settled (untied) match the rating exchange is zero-sum — the
recorded team 2 delta is the negative of the recorded team 1 delta, and the
four per-player deltas applied by the engine sum to zero (both players of a
team receiving the identical team delta). -/
theorem match_rating_zero_sum (k : ℝ) (r : String → ℝ) (m : SettledMatch)
    (htie : m.score1 ≠ m.score2)
    (hd : [m.t1p1, m.t1p2, m.t2p1, m.t2p2].Nodup) :
    team2EloChange k r m = -(team1EloChange k r m) ∧
    (applyMatchBinary k r m m.t1p1 - r m.t1p1) +
      (applyMatchBinary k r m m.t1p2 - r m.t1p2) +
      (applyMatchBinary k r m m.t2p1 - r m.t2p1) +
      (applyMatchBinary k r m m.t2p2 - r m.t2p2) = 0 := by
  have hsum := expectedScore_add_symm
    (teamRating (r m.t1p1) (r m.t1p2)) (teamRating (r m.t2p1) (r m.t2p2))
  have hneg : team2EloChange k r m = -(team1EloChange k r m) := by
    unfold team2EloChange team1EloChange teamDelta
    rcases lt_or_gt_of_ne htie with hlt | hgt
    · rw [if_pos hlt, if_neg (by omega)]
      linear_combination (-k) * hsum
    · rw [if_neg (by omega), if_pos (by omega)]
      linear_combination (-k) * hsum
  refine ⟨hneg, ?_⟩
  simp only [List.nodup_cons, List.mem_cons, List.mem_singleton,
    List.not_mem_nil, or_false, not_or] at hd
  obtain ⟨⟨h12, h13, h14⟩, ⟨h23, h24⟩, h34, -⟩ := hd
  have e1 : applyMatchBinary k r m m.t1p1 = r m.t1p1 + team1EloChange k r m := by
    unfold applyMatchBinary
    rw [if_pos (Or.inl rfl)]
  have e2 : applyMatchBinary k r m m.t1p2 = r m.t1p2 + team1EloChange k r m := by
    unfold applyMatchBinary
    rw [if_pos (Or.inr rfl)]
  have e3 : applyMatchBinary k r m m.t2p1 = r m.t2p1 + team2EloChange k r m := by
    unfold applyMatchBinary
    rw [if_neg (by push_neg; exact ⟨fun h => h13 h.symm, fun h => h23 h.symm⟩),
      if_pos (Or.inl rfl)]
  have e4 : applyMatchBinary k r m m.t2p2 = r m.t2p2 + team2EloChange k r m := by
    unfold applyMatchBinary
    rw [if_neg (by push_neg; exact ⟨fun h => h14 h.symm, fun h => h24 h.symm⟩),
      if_pos (Or.inr rfl)]
  rw [e1, e2, e3, e4, hneg]
  ring

/-- Witness for C6 at a concrete match. -/
theorem match_rating_zero_sum_witness :
    team2EloChange 40 (fun _ => 1200) ⟨"A", "B", "C", "D", 21, 15⟩ =
      -(team1EloChange 40 (fun _ => 1200) ⟨"A", "B", "C", "D", 21, 15⟩) :=
  (match_rating_zero_sum 40 (fun _ => 1200) ⟨"A", "B", "C", "D", 21, 15⟩
    (by decide) (by decide)).1

/-- C4: the concrete scenario — A and B (both 1200) beat C and D (both
1200) 21 to 15 with `K = 40` in binary mode: each expected outcome is 1/2,
the winning team delta is `40 * (1 - 1/2) = 20`, A and B end at 1220, C and
D end at 1180; and with one win in one game A has 3 points while C, with
zero wins in one game, has 1 point. -/
theorem scenario_equal_ratings_k40 :
    expectedScore 1200 1200 = 1 / 2 ∧
    team1EloChange K (fun _ => 1200) ⟨"A", "B", "C", "D", 21, 15⟩ =
      40 * (1 - 1 / 2) ∧
    applyMatchBinary K (fun _ => 1200) ⟨"A", "B", "C", "D", 21, 15⟩ "A" = 1220 ∧
    applyMatchBinary K (fun _ => 1200) ⟨"A", "B", "C", "D", 21, 15⟩ "B" = 1220 ∧
    applyMatchBinary K (fun _ => 1200) ⟨"A", "B", "C", "D", 21, 15⟩ "C" = 1180 ∧
    applyMatchBinary K (fun _ => 1200) ⟨"A", "B", "C", "D", 21, 15⟩ "D" = 1180 ∧
    points 1 1 = 3 ∧ points 0 1 = 1 := by
  have hE : expectedScore 1200 1200 = 1 / 2 := by
    unfold expectedScore
    norm_num [Real.rpow_zero]
  have hR : teamRating ((fun _ : String => (1200 : ℝ)) "A")
      ((fun _ : String => (1200 : ℝ)) "B") = 1200 := by
    norm_num [teamRating]
  have h1 : team1EloChange K (fun _ => 1200) ⟨"A", "B", "C", "D", 21, 15⟩ =
      40 * (1 - 1 / 2) := by
    unfold team1EloChange teamDelta
    rw [if_pos (by norm_num)]
    norm_num [teamRating, hE, K]
  have h2 : team2EloChange K (fun _ => 1200) ⟨"A", "B", "C", "D", 21, 15⟩ =
      40 * (0 - 1 / 2) := by
    unfold team2EloChange teamDelta
    rw [if_neg (by norm_num)]
    norm_num [teamRating, hE, K]
  refine ⟨hE, h1, ?_, ?_, ?_, ?_, rfl, rfl⟩
  · unfold applyMatchBinary
    rw [if_pos (Or.inl rfl), h1]
    norm_num
  · unfold applyMatchBinary
    rw [if_pos (Or.inr rfl), h1]
    norm_num
  · unfold applyMatchBinary
    rw [if_neg (by simp), if_pos (Or.inl rfl), h2]
    norm_num
  · unfold applyMatchBinary
    rw [if_neg (by simp), if_pos (Or.inr rfl), h2]
    norm_num

/-- A player row of the `players` table in
`src/backend/database/schema.sql`, with its column defaults. -/
structure PlayerRowDB where
  name : String
  current_elo : ℚ
  games : Int
  wins : Int
  pointsCol : Int
  win_rate : ℚ
  avg_point_diff : ℚ
deriving DecidableEq, Repr

/-- A freshly inserted player: every stats column takes its schema
default (`current_elo` 1200, `games`, `wins`, `points` 0). -/
def newPlayer (name : String) : PlayerRowDB :=
  ⟨name, 1200, 0, 0, 0, 0, 0⟩

/-- Modelled from the spec: the Rating Engine looks a player's running
rating up in its map, falling back to `INITIAL_RATING` for a player seen in
their very first match. -/
noncomputable def lookupRating (r : String → Option ℝ) (p : String) : ℝ :=
  (r p).getD INITIAL_RATING

/-- C5: a newly created player's stored row defaults to rating 1200 with
zero games, wins and points, and a player absent from the engine's running
map (their very first settled match) enters the computation at the default
initial rating 1200. -/
theorem new_player_defaults (nm p : String) :
    (newPlayer nm).current_elo = 1200 ∧ (newPlayer nm).games = 0 ∧
    (newPlayer nm).wins = 0 ∧ (newPlayer nm).pointsCol = 0 ∧
    lookupRating (fun _ => none) p = INITIAL_RATING ∧
    INITIAL_RATING = 1200 := by
  exact ⟨rfl, rfl, rfl, rfl, rfl, rfl⟩

/-- A session row: its date and its display name. -/
structure SessionRow where
  date : String
  name : String
deriving DecidableEq, Repr

/-- The disambiguated display name `date #N`. -/
def sessionNameCandidate (date : String) (n : Nat) : String :=
  date ++ " #" ++ toString n

/-- The next unused suffix number at or after `n`, searched among the
existing names (the fuel bounds the search; one more than the number of
existing names always suffices). -/
def firstUnusedAux (names : List String) (date : String) :
    Nat → Nat → Nat
  | 0, n => n
  | fuel + 1, n =>
    if sessionNameCandidate date n ∈ names then
      firstUnusedAux names date fuel (n + 1)
    else n

/-- Modelled from the spec: session naming at creation time (the backend
session-creation endpoint is not under `src/`; `SESSION_FEATURE.md`
documents it).  The label is the date itself when no session exists for
that date; otherwise the date plus a suffix whose N is the next unused
integer starting at 2, computed from the existing session names for that
date. -/
def newSessionName (existing : List SessionRow) (date : String) : String :=
  let sameDate := (existing.filter fun s => s.date == date).map fun s => s.name
  if sameDate.isEmpty then date
  else sessionNameCandidate date (firstUnusedAux sameDate date
    (sameDate.length + 1) 2)

/-- Modelled from the spec: creating a session appends a row named by
`newSessionName` for the current date. -/
def createSession (existing : List SessionRow) (date : String) :
    SessionRow × List SessionRow :=
  let s : SessionRow := ⟨date, newSessionName existing date⟩
  (s, existing ++ [s])

/-- C7: creating a session when one already exists for the same date
succeeds with an automatic suffix: for any date the first session is named
by the date alone, and on the concrete scenario date the second session
created without deleting the first is named with the suffix, yielding
`6/1/2024` then `6/1/2024 #2`. -/
theorem session_naming_same_date :
    (∀ d : String, (createSession [] d).1.name = d) ∧
    (createSession [] "6/1/2024").1.name = "6/1/2024" ∧
    (createSession (createSession [] "6/1/2024").2 "6/1/2024").1.name =
      "6/1/2024 #2" := by
  refine ⟨fun d => rfl, rfl, ?_⟩
  decide

/-- A stored match row: its owning session (if any), its settlement status
(`settled` mirrors the promotion of pending matches) and the match data. -/
structure StoredMatch where
  sessionId : Option Nat
  settled : Bool
  data : SettledMatch
deriving DecidableEq, Repr

/-- A session record: its id and pending flag (`is_pending` in the
schema). -/
structure SessionRec where
  sid : Nat
  isPending : Bool
deriving DecidableEq, Repr

/-- The match store: sessions and matches. -/
structure Store where
  sessions : List SessionRec
  matchRows : List StoredMatch
deriving DecidableEq, Repr

/-- Promotion of one match on lock-in: a match of the locked session
becomes settled, any other match is untouched. -/
def promoteMatch (sid : Nat) (m : StoredMatch) : StoredMatch :=
  if m.sessionId = some sid then { m with settled := true } else m

/-- Modelled from the spec: locking in a session (the backend lock-in
endpoint is not under `src/`; the spec and `SESSION_FEATURE.md` describe
it).  The session's pending flag is cleared, its pending matches are
promoted to settled, and the full recompute input — returned alongside the
new store — is the list of ALL settled matches of the resulting store, not
just the newly promoted ones. -/
def lockInSession (st : Store) (sid : Nat) : Store × List StoredMatch :=
  let sessions := st.sessions.map fun s =>
    if s.sid = sid then { s with isPending := false } else s
  let promoted := st.matchRows.map (promoteMatch sid)
  (⟨sessions, promoted⟩, promoted.filter fun m => m.settled)

/-- A session accepts match mutations only while it exists and is
pending. -/
def canModifySession (st : Store) (sid : Nat) : Bool :=
  st.sessions.any fun s => s.sid == sid && s.isPending

/-- Modelled from the spec: adding a match to a session, valid only while
the owning session is pending. -/
def addMatch (st : Store) (sid : Nat) (d : SettledMatch) : Option Store :=
  if canModifySession st sid then
    some ⟨st.sessions, st.matchRows ++ [⟨some sid, false, d⟩]⟩
  else none

/-- Modelled from the spec: editing a match of a session, valid only while
the owning session is pending. -/
def editMatch (st : Store) (sid : Nat) (idx : Nat) (d : SettledMatch) :
    Option Store :=
  if canModifySession st sid then
    some ⟨st.sessions, st.matchRows.set idx ⟨some sid, false, d⟩⟩
  else none

/-- Modelled from the spec: removing a match of a session, valid only while
the owning session is pending. -/
def removeMatch (st : Store) (sid : Nat) (idx : Nat) : Option Store :=
  if canModifySession st sid then
    some ⟨st.sessions, st.matchRows.eraseIdx idx⟩
  else none

theorem promoteMatch_settled_of_settled (sid : Nat) (m : StoredMatch)
    (h : m.settled = true) : promoteMatch sid m = m := by
  unfold promoteMatch
  split_ifs with hs
  · cases m
    simp_all
  · rfl

theorem canModifySession_after_lock (st : Store) (sid : Nat) :
    canModifySession (lockInSession st sid).1 sid = false := by
  simp only [canModifySession, lockInSession, List.any_map,
    List.any_eq_false, Function.comp]
  intro s hs
  by_cases h : s.sid = sid
  · simp [h]
  · simp [h]

/-- C8: locking in a pending session promotes all of its matches to
settled, returns as recompute input the list of all settled matches of the
resulting store (so previously settled matches are recomputed too, not
just the newly promoted ones), clears the session's pending flag, and
afterwards no match can be added to, edited in, or removed from that
session. -/
theorem lockIn_promotes_then_recomputes_all (st : Store) (sid : Nat)
    (d : SettledMatch) (idx : Nat) :
    (∀ s ∈ (lockInSession st sid).1.sessions, s.sid = sid →
      s.isPending = false) ∧
    (∀ m ∈ (lockInSession st sid).1.matchRows, m.sessionId = some sid →
      m.settled = true) ∧
    (lockInSession st sid).2 =
      (lockInSession st sid).1.matchRows.filter (fun m => m.settled) ∧
    (∀ m ∈ st.matchRows, m.settled = true → m ∈ (lockInSession st sid).2) ∧
    addMatch (lockInSession st sid).1 sid d = none ∧
    editMatch (lockInSession st sid).1 sid idx d = none ∧
    removeMatch (lockInSession st sid).1 sid idx = none := by
  have hcm := canModifySession_after_lock st sid
  refine ⟨?_, ?_, rfl, ?_, ?_, ?_, ?_⟩
  · intro s hs hsid
    simp only [lockInSession, List.mem_map] at hs
    obtain ⟨s0, hs0, rfl⟩ := hs
    by_cases h : s0.sid = sid
    · rw [if_pos h]
    · rw [if_neg h] at hsid ⊢
      exact absurd hsid h
  · intro m hm hmid
    simp only [lockInSession, List.mem_map] at hm
    obtain ⟨m0, hm0, rfl⟩ := hm
    unfold promoteMatch at hmid ⊢
    by_cases h : m0.sessionId = some sid
    · rw [if_pos h]
    · rw [if_neg h] at hmid ⊢
      exact absurd hmid h
  · intro m hm hset
    simp only [lockInSession, List.mem_filter]
    exact ⟨(promoteMatch_settled_of_settled sid m hset) ▸
      List.mem_map_of_mem (promoteMatch sid) hm, by simpa using hset⟩
  · simp [addMatch, hcm]
  · simp [editMatch, hcm]
  · simp [removeMatch, hcm]

/-- Witness for C8 at a concrete store holding one pending session with one
pending match next to one legacy settled match. -/
theorem lockIn_promotes_then_recomputes_all_witness :
    ((⟨some 5, true, ⟨"A", "B", "C", "D", 21, 15⟩⟩ : StoredMatch).settled =
      true) ∧
    (⟨none, true, ⟨"E", "F", "G", "H", 21, 10⟩⟩ : StoredMatch) ∈
      (lockInSession
        ⟨[⟨5, true⟩], [⟨some 5, false, ⟨"A", "B", "C", "D", 21, 15⟩⟩,
          ⟨none, true, ⟨"E", "F", "G", "H", 21, 10⟩⟩]⟩ 5).2 ∧
    addMatch (lockInSession
        ⟨[⟨5, true⟩], [⟨some 5, false, ⟨"A", "B", "C", "D", 21, 15⟩⟩,
          ⟨none, true, ⟨"E", "F", "G", "H", 21, 10⟩⟩]⟩ 5).1 5
      ⟨"A", "B", "C", "D", 21, 15⟩ = none := by
  obtain ⟨-, h2, -, h4, h5, -, -⟩ :=
    lockIn_promotes_then_recomputes_all
      ⟨[⟨5, true⟩], [⟨some 5, false, ⟨"A", "B", "C", "D", 21, 15⟩⟩,
        ⟨none, true, ⟨"E", "F", "G", "H", 21, 10⟩⟩]⟩ 5
      ⟨"A", "B", "C", "D", 21, 15⟩ 0
  exact ⟨h2 ⟨some 5, true, ⟨"A", "B", "C", "D", 21, 15⟩⟩
      (by simp [lockInSession, promoteMatch]) rfl,
    h4 ⟨none, true, ⟨"E", "F", "G", "H", 21, 10⟩⟩ (by simp) rfl, h5⟩

end BVElo
